import Mathlib

/-!
Verification of the EMS (employee/task/team management) API route handlers.

The definitions below are a shallow embedding of the TypeScript route
handlers under `src/app/api` and the auth helpers in `src/lib/auth.ts`.
The relational store (Prisma) is modelled as explicit lists of rows; each
handler is a pure function from the request data and the database state to
a response and a new database state.  JavaScript string truthiness is
modelled by comparing with the empty string; absent JSON fields are
modelled with `Option`.
-/

namespace EMS

/-! ### Data model (Prisma rows) -/

/-- A row of the `User` table.  Roles are open strings in the code
(`"admin" | "manager" | "employee"`); team membership is the single
nullable foreign key `teamId` (spec §3). -/
structure User where
  id : String
  name : String
  email : String
  password : String
  role : String
  teamId : Option String
deriving DecidableEq, Repr

/-- A row of the `Temp_User` (pending registration) table. -/
structure TempUser where
  id : String
  name : String
  email : String
  password : String
deriving DecidableEq, Repr

/-- A row of the `Team` table. -/
structure Team where
  id : String
  name : String
  leadId : Option String
deriving DecidableEq, Repr

/-- A row of the `Task` table.  `dueDate` is a nullable timestamp. -/
structure Task where
  id : String
  title : String
  description : String
  status : String
  priority : String
  dueDate : Option Int
  assignedBy : String
  assignedTo : Option String
  teamId : String
deriving DecidableEq, Repr

/-- The database state: the four tables the route handlers touch. -/
structure DB where
  users : List User
  tempUsers : List TempUser
  teams : List Team
  tasks : List Task
deriving DecidableEq, Repr

/-- An HTTP response, reduced to the status code and the `error`/`message`
string of the JSON envelope. -/
structure Resp where
  status : Nat
  msg : String
deriving DecidableEq, Repr

/-! ### Authentication (`src/lib/auth.ts`) -/

/-- The `{id, role}` payload decoded from a session token. -/
structure Identity where
  id : String
  role : String
deriving DecidableEq, Repr

/-- The authentication state of a request: no `access-token` cookie, a
cookie that fails JWT verification, or a cookie carrying a valid signed
payload. -/
inductive Auth
  | noToken
  | badToken
  | valid (u : Identity)
deriving DecidableEq, Repr

/-- `verifyToken` (auth.ts:19): throws `"Invalid or expired token"` when the
cookie is missing or fails verification, otherwise returns the decoded
payload.  (The inner `"No token found"` throw is caught and rethrown with
this message.) -/
def verifyToken : Auth → Except String Identity
  | .noToken => .error "Invalid or expired token"
  | .badToken => .error "Invalid or expired token"
  | .valid u => .ok u

/-- `isAdmin` (auth.ts:40): verifies the token, then throws
`"Access denied: Admins only"` unless the role is `admin`; it never returns
a falsy value — on success it returns the decoded payload object. -/
def isAdmin (a : Auth) : Except String Identity :=
  match verifyToken a with
  | .error e => .error e
  | .ok u => if u.role == "admin" then .ok u else .error "Access denied: Admins only"

/-- `checkManagerOrAdmin` (teams routes): catches `verifyToken` failures and
returns an unauthorized result instead of throwing. -/
def checkManagerOrAdmin (a : Auth) : Except String Identity :=
  match verifyToken a with
  | .error _ => .error "Authentication failed"
  | .ok u =>
    if u.role == "admin" || u.role == "manager" then .ok u
    else .error "Admin or Manager access required"

/-- JavaScript truthiness of the identity object returned by `isAdmin`:
a decoded JWT payload is an object, and an object is always truthy. -/
def jsTruthy (_u : Identity) : Bool := true

/-! ### Store queries -/

/-- `prisma.user.findUnique({where: {email}})`. -/
def findUserByEmail (db : DB) (e : String) : Option User :=
  db.users.find? (fun u => u.email == e)

/-- `prisma.temp_User.findUnique({where: {email}})`. -/
def findTempByEmail (db : DB) (e : String) : Option TempUser :=
  db.tempUsers.find? (fun t => t.email == e)

/-- `prisma.team.findUnique({where: {id}})`. -/
def findTeam (db : DB) (i : String) : Option Team :=
  db.teams.find? (fun t => t.id == i)

/-- Number of users whose `teamId` points at the given team (the team's
membership count). -/
def memberCount (db : DB) (teamId : String) : Nat :=
  db.users.countP (fun u => u.teamId == some teamId)

/-! ### Login and registration (`src/app/api/auth` routes) -/

/-- `POST /api/auth/login`.  `cmp` is the external bcrypt
`comparePassword` collaborator.  Empty strings model missing/falsy JSON
fields. -/
def login (cmp : String → String → Bool) (db : DB) (email password : String) : Resp :=
  if email == "" || password == "" then ⟨400, "Missing credentials"⟩
  else if (findTempByEmail db email).isSome then ⟨403, "Account pending approval"⟩
  else
    match findUserByEmail db email with
    | none => ⟨404, "User not found"⟩
    | some u =>
      if cmp password u.password then ⟨200, "Login successful"⟩
      else ⟨401, "Invalid password"⟩

/-- `POST /api/auth/register`.  `hashFn` is the external bcrypt
`hashPassword` collaborator; `newId` is the id the store generates for the
created row. -/
def register (hashFn : String → String) (newId : String) (db : DB)
    (name email password : String) : Resp × DB :=
  if name == "" || email == "" || password == "" then (⟨400, "All fields required"⟩, db)
  else if (findUserByEmail db email).isSome then (⟨400, "Email already registered"⟩, db)
  else
    (⟨200, "Registration successful"⟩,
     { db with tempUsers := db.tempUsers ++ [⟨newId, name, email, hashFn password⟩] })

/-- Modelled from the spec: the `role` column default applied by the store
when `approve` creates a User without specifying a role (the Prisma schema
file is not part of the sources; spec §8 documents the default as
`"employee"`). -/
def defaultRole : String := "employee"

/-- `POST /api/users` (users/route.ts:264, the approve/reject endpoint).
The handler reads the request body only: it never consults the session —
`checkAdmin` is imported in the file but not called in this handler — so
the `auth` argument is unused.  On `approve = true` it creates a User from
the pending row and then deletes the pending row; on `approve = false` it
only deletes the pending row. -/
def usersApprovePOST (_auth : Auth) (newUserId : String) (db : DB)
    (userId : String) (approve : Option Bool) : Resp × DB :=
  let temp := db.tempUsers.find? (fun t => t.id == userId)
  if userId == "" || approve == none then (⟨400, "Missing userId or approve flag"⟩, db)
  else
    match temp with
    | none => (⟨404, "User not found"⟩, db)
    | some t =>
      let db1 :=
        if approve == some true then
          { db with users := db.users ++ [⟨newUserId, t.name, t.email, t.password, defaultRole, none⟩] }
        else db
      (⟨200, "User processed successfully"⟩,
       { db1 with tempUsers := db1.tempUsers.filter (fun x => x.id != userId) })

/-! ### Admin user routes (`/api/users`, `/api/users/[id]`) -/

/-- Result of `GET /api/users`: either a thrown exception (the guard throws
outside the handler's `try` block) or a response with optional data. -/
structure UsersGetResult where
  status : Nat
  data : Option (List User)
deriving DecidableEq, Repr

/-- `GET /api/users` (users/route.ts:6).  `await checkAdmin(request)` runs
before the `try` block, so a guard exception propagates out of the handler;
the `if (!isAdmin)` test then checks the truthiness of the returned
identity object. -/
def usersGET (auth : Auth) (db : DB) : Except String UsersGetResult :=
  match isAdmin auth with
  | .error e => .error e
  | .ok u =>
    if !jsTruthy u then .ok ⟨403, none⟩
    else .ok ⟨200, some (db.users.filter (fun x => x.role != "admin"))⟩

/-- `DELETE /api/users/[id]` (users/[id]/route.ts:133).  Same guard pattern
as `usersGET`: the guard call is outside the `try` block. -/
def usersIdDELETE (auth : Auth) (db : DB) (userId : String) :
    Except String (Resp × DB) :=
  match isAdmin auth with
  | .error e => .error e
  | .ok u =>
    if !jsTruthy u then .ok (⟨403, ""⟩, db)
    else if userId == "" then .ok (⟨400, "Invalid user ID"⟩, db)
    else
      match db.users.find? (fun x => x.id == userId) with
      | none => .ok (⟨404, "User not found"⟩, db)
      | some _ =>
        .ok (⟨200, "User deleted successfully"⟩,
             { db with users := db.users.filter (fun x => x.id != userId) })

/-! ### Task routes (`/api/tasks`) -/

/-- The `where` object built by `GET /api/tasks`. -/
structure TaskWhere where
  status : Option String
  priority : Option String
  teamId : Option String
  assignedTo : Option String
deriving DecidableEq, Repr

/-- One clause of the `where` object against a string column. -/
def optMatch (f : Option String) (v : String) : Bool :=
  match f with
  | none => true
  | some s => v == s

/-- One clause of the `where` object against a nullable string column
(Prisma `assignedTo: x` matches only rows where the column equals `x`). -/
def optMatchO (f : Option String) (v : Option String) : Bool :=
  match f with
  | none => true
  | some s => v == some s

/-- The conjunction of the `where` clauses. -/
def taskMatches (w : TaskWhere) (t : Task) : Bool :=
  optMatch w.status t.status && optMatch w.priority t.priority &&
    optMatch w.teamId t.teamId && optMatchO w.assignedTo t.assignedTo

/-- `orderBy: { dueDate: 'asc' }` comparison; `none` (SQL NULL) sorts
first. -/
def dueLE (a b : Task) : Bool :=
  match a.dueDate, b.dueDate with
  | none, _ => true
  | some _, none => false
  | some x, some y => x ≤ y

/-- `if (param) where.f = param`: a query parameter enters the `where`
object only when truthy (present and non-empty). -/
def strOpt (s : String) : Option String :=
  if s == "" then none else some s

/-- Result of `GET /api/tasks`. -/
inductive TasksGetResult
  | err (r : Resp)
  | ok (tasks : List Task)
deriving DecidableEq, Repr

/-- `GET /api/tasks` (tasks/route.ts:6): builds the filter from the query
parameters, overriding `assignedTo` with the caller's id for employees,
then lists matching tasks ordered by `dueDate` ascending. -/
def tasksGET (auth : Auth) (db : DB)
    (qStatus qPriority qTeamId qAssignedTo : String) : TasksGetResult :=
  match verifyToken auth with
  | .error _ => .err ⟨401, "Authentication required"⟩
  | .ok user =>
    let w : TaskWhere := ⟨strOpt qStatus, strOpt qPriority, strOpt qTeamId, strOpt qAssignedTo⟩
    let w := if user.role == "employee" then { w with assignedTo := some user.id } else w
    .ok ((db.tasks.filter (taskMatches w)).mergeSort dueLE)

/-- The JSON body of `POST /api/tasks`; empty strings model missing/falsy
fields, `assignedTo` distinguishes absent (`none`) from present. -/
structure TaskCreateBody where
  title : String
  description : String
  assignedTo : Option String
  teamId : String
  dueDate : Option Int
  priority : String
deriving DecidableEq, Repr

/-- JavaScript `String.prototype.trim`: strips leading and trailing
whitespace (written out over the character list so that it evaluates by
kernel reduction). -/
def jsTrim (s : String) : String :=
  String.mk (((s.data.dropWhile Char.isWhitespace).reverse.dropWhile Char.isWhitespace).reverse)

/-- `assignedTo && assignedTo.trim() !== '' ? assignedTo : null`
(tasks/route.ts:92). -/
def cleanAssignedTo (b : TaskCreateBody) : Option String :=
  match b.assignedTo with
  | some s => if jsTrim s != "" then some s else none
  | none => none

/-- Result of `POST /api/tasks`. -/
inductive TasksPostResult
  | err (r : Resp)
  | ok (t : Task)
deriving DecidableEq, Repr

/-- `POST /api/tasks` (tasks/route.ts:77). -/
def tasksPOST (auth : Auth) (newTaskId : String) (db : DB)
    (b : TaskCreateBody) : TasksPostResult × DB :=
  match verifyToken auth with
  | .error _ => (.err ⟨401, "Authentication required"⟩, db)
  | .ok user =>
    if user.role == "employee" then
      (.err ⟨403, "Only managers and admins can create tasks"⟩, db)
    else if b.title == "" || b.description == "" || b.teamId == "" then
      (.err ⟨400, "Title, description, and teamId are required"⟩, db)
    else
      match findTeam db b.teamId with
      | none => (.err ⟨400, "Team not found"⟩, db)
      | some _ =>
        let assignOk :=
          match cleanAssignedTo b with
          | none => true
          | some a => db.users.any (fun u => u.id == a && u.teamId == some b.teamId)
        if !assignOk then
          (.err ⟨400, "Assigned user not found or not part of the selected team"⟩, db)
        else
          let t : Task :=
            ⟨newTaskId, b.title, b.description, "pending",
             (if b.priority == "" then "medium" else b.priority),
             b.dueDate, user.id, cleanAssignedTo b, b.teamId⟩
          (.ok t, { db with tasks := db.tasks ++ [t] })

/-- The `updates` object of the batch `PUT /api/tasks` body. -/
structure TaskUpdates where
  status : Option String
  priority : Option String
  dueDate : Option Int
  title : Option String
  description : Option String
  assignedTo : Option String
deriving DecidableEq, Repr

/-- JavaScript truthiness of a JSON string field. -/
def tru : Option String → Bool
  | none => false
  | some s => s != ""

/-- The `allowedUpdates` object built by `PUT /api/tasks`
(tasks/route.ts:238): `status`, `priority` and `dueDate` are copied for
every caller; `title`, `description` and `assignedTo` only when the caller
is not an employee. -/
def allowedFor (role : String) (u : TaskUpdates) : TaskUpdates where
  status := if tru u.status then u.status else none
  priority := if tru u.priority then u.priority else none
  dueDate := u.dueDate
  title := if role != "employee" && tru u.title then u.title else none
  description := if role != "employee" && tru u.description then u.description else none
  assignedTo := if role != "employee" && tru u.assignedTo then u.assignedTo else none

/-- `prisma.task.updateMany({data: allowedUpdates})` applied to one row:
each present field overwrites the column. -/
def applyAllowed (a : TaskUpdates) (t : Task) : Task where
  id := t.id
  title := a.title.getD t.title
  description := a.description.getD t.description
  status := a.status.getD t.status
  priority := a.priority.getD t.priority
  dueDate := match a.dueDate with | some d => some d | none => t.dueDate
  assignedBy := t.assignedBy
  assignedTo := match a.assignedTo with | some s => some s | none => t.assignedTo
  teamId := t.teamId

/-- `PUT /api/tasks` (tasks/route.ts:201), the batch update. -/
def tasksPUT (auth : Auth) (db : DB) (taskIds : List String)
    (updates : TaskUpdates) : Resp × DB :=
  match verifyToken auth with
  | .error _ => (⟨401, "Authentication required"⟩, db)
  | .ok user =>
    if taskIds.isEmpty then (⟨400, "Task IDs array is required"⟩, db)
    else
      let tasks := db.tasks.filter (fun t => taskIds.contains t.id)
      if user.role == "employee" && tasks.any (fun t => t.assignedTo != some user.id) then
        (⟨403, "You can only update your own tasks"⟩, db)
      else
        let allowed := allowedFor user.role updates
        let newTasks :=
          db.tasks.map (fun t => if taskIds.contains t.id then applyAllowed allowed t else t)
        (⟨200, "updated"⟩, { db with tasks := newTasks })

/-- Relation between a task before and after a batch update by an employee
caller: `title`, `description`, `assignedTo` (and the id and the fixed
columns) are unchanged; `status`, `priority` and `dueDate` are each either
unchanged or set to the submitted value. -/
def employeeFrame (upd : TaskUpdates) (t t' : Task) : Prop :=
  t'.id = t.id ∧ t'.title = t.title ∧ t'.description = t.description ∧
  t'.assignedTo = t.assignedTo ∧ t'.teamId = t.teamId ∧ t'.assignedBy = t.assignedBy ∧
  (t'.status = t.status ∨ upd.status = some t'.status) ∧
  (t'.priority = t.priority ∨ upd.priority = some t'.priority) ∧
  (t'.dueDate = t.dueDate ∨ upd.dueDate = t'.dueDate)

/-! ### Team routes (`/api/teams/[id]`, `/api/teams/[id]/members`) -/

/-- `DELETE /api/teams/[id]` (teams/[id]/route.ts:224). -/
def teamIdDELETE (auth : Auth) (db : DB) (teamId : String) : Resp × DB :=
  match checkManagerOrAdmin auth with
  | .error e => (⟨403, e⟩, db)
  | .ok _ =>
    if teamId == "" then (⟨400, "Team ID is required"⟩, db)
    else
      match findTeam db teamId with
      | none => (⟨404, "Team not found"⟩, db)
      | some _ =>
        if (db.tasks.filter (fun t => t.teamId == teamId)).length > 0 then
          (⟨400, "Cannot delete team with active tasks"⟩, db)
        else
          let clearedUsers :=
            db.users.map (fun u => if u.teamId == some teamId then { u with teamId := none } else u)
          (⟨200, "Team deleted successfully"⟩,
           { db with users := clearedUsers, teams := db.teams.filter (fun t => t.id != teamId) })

/-- The per-row effect of `addMembers` on the `User` table: each listed
user's `teamId` is pointed at the team. -/
def addRow (teamId : String) (userIds : List String) (v : User) : User :=
  if userIds.contains v.id then { v with teamId := some teamId } else v

/-- The per-row effect of `removeMembers` on the `User` table: `teamId` is
cleared only for listed users whose `teamId` currently points at this
team. -/
def removeRow (teamId : String) (userIds : List String) (v : User) : User :=
  if userIds.contains v.id && v.teamId == some teamId then { v with teamId := none } else v

/-- `POST /api/teams/[id]/members`: checks the team and the existence of
every listed user before mutating, then points each listed user's `teamId`
at the team. -/
def membersPOST (auth : Auth) (db : DB) (teamId : String)
    (userIds : List String) : Resp × DB :=
  match checkManagerOrAdmin auth with
  | .error e => (⟨403, e⟩, db)
  | .ok _ =>
    if teamId == "" then (⟨400, "Team ID is required"⟩, db)
    else if userIds.isEmpty then (⟨400, "User IDs array is required"⟩, db)
    else
      match findTeam db teamId with
      | none => (⟨404, "Team not found"⟩, db)
      | some _ =>
        let users := db.users.filter (fun u => userIds.contains u.id)
        if users.length != userIds.length then
          (⟨400, "One or more users not found"⟩, db)
        else
          (⟨200, "member(s) added to team"⟩,
           { db with users := db.users.map (addRow teamId userIds) })

/-- `DELETE /api/teams/[id]/members`: clears `teamId` only for listed users
whose `teamId` currently points at this team. -/
def membersDELETE (auth : Auth) (db : DB) (teamId : String)
    (userIds : List String) : Resp × DB :=
  match checkManagerOrAdmin auth with
  | .error e => (⟨403, e⟩, db)
  | .ok _ =>
    if teamId == "" then (⟨400, "Team ID is required"⟩, db)
    else if userIds.isEmpty then (⟨400, "User IDs array is required"⟩, db)
    else
      match findTeam db teamId with
      | none => (⟨404, "Team not found"⟩, db)
      | some _ =>
        (⟨200, "Member(s) removed from team"⟩,
         { db with users := db.users.map (removeRow teamId userIds) })

/-! ### Helper lemmas -/

theorem optMatch_strOpt (q v : String) : optMatch (strOpt q) v = true ↔ (q ≠ "" → v = q) := by
  by_cases hq : q = ""
  · subst hq; simp [optMatch, strOpt]
  · simp [optMatch, strOpt, hq]

theorem optMatchO_strOpt (q : String) (v : Option String) :
    optMatchO (strOpt q) v = true ↔ (q ≠ "" → v = some q) := by
  by_cases hq : q = ""
  · subst hq; simp [optMatchO, strOpt]
  · simp [optMatchO, strOpt, hq]

theorem optMatchO_some (s : String) (v : Option String) :
    optMatchO (some s) v = true ↔ v = some s := by
  simp [optMatchO]

theorem dueLE_trans : ∀ a b c : Task, dueLE a b → dueLE b c → dueLE a c := by
  intro a b c
  unfold dueLE
  cases a.dueDate <;> cases b.dueDate <;> cases c.dueDate <;> simp <;> omega

theorem dueLE_total : ∀ a b : Task, dueLE a b || dueLE b a := by
  intro a b
  unfold dueLE
  cases a.dueDate <;> cases b.dueDate <;> simp <;> omega

theorem forall₂_map_self {α β : Type} (P : α → β → Prop) (f : α → β) (l : List α)
    (h : ∀ t ∈ l, P t (f t)) : List.Forall₂ P l (l.map f) := by
  induction l with
  | nil => simp
  | cons a tl ih =>
    simp only [List.map_cons, List.forall₂_cons]
    exact ⟨h a (by simp), ih (fun t ht => h t (by simp [ht]))⟩

/-! ### Claim C3 -/

/-- C3: whenever a pending registration exists for the email, `login`
returns 403 "Account pending approval" for every supplied (non-empty)
password and every password-compare oracle, and the result does not depend
on the approved-user table or the compare oracle (they are only consulted
when no pending record exists). -/
theorem login_pending_forbidden (cmp : String → String → Bool) (db : DB)
    (email password : String) (he : email ≠ "") (hp : password ≠ "")
    (hpend : ∃ t ∈ db.tempUsers, t.email = email) :
    login cmp db email password = ⟨403, "Account pending approval"⟩ ∧
    ∀ (cmp2 : String → String → Bool) (users2 : List User),
      login cmp2 { db with users := users2 } email password =
        ⟨403, "Account pending approval"⟩ := by
  have hfind : (findTempByEmail db email).isSome := by
    rw [findTempByEmail, List.find?_isSome]
    obtain ⟨t, ht, he'⟩ := hpend
    exact ⟨t, ht, by simp [he']⟩
  have hfind2 : ∀ users2 : List User,
      (findTempByEmail { db with users := users2 } email).isSome := fun _ => hfind
  constructor
  · simp [login, he, hp, hfind]
  · intro cmp2 users2
    simp [login, he, hp, hfind2 users2]

/-- Witness for C3 at a concrete state: a pending registration for
`"ann@x.com"` forces 403 regardless of the stored users and password. -/
theorem login_pending_forbidden_witness :
    login (fun _ _ => true)
      ⟨[⟨"u1", "Ann", "ann@x.com", "H", "employee", none⟩],
       [⟨"p1", "Ann", "ann@x.com", "H"⟩], [], []⟩
      "ann@x.com" "pw" = ⟨403, "Account pending approval"⟩ :=
  (login_pending_forbidden (fun _ _ => true)
    ⟨[⟨"u1", "Ann", "ann@x.com", "H", "employee", none⟩],
     [⟨"p1", "Ann", "ann@x.com", "H"⟩], [], []⟩
    "ann@x.com" "pw" (by decide) (by decide)
    ⟨⟨"p1", "Ann", "ann@x.com", "H"⟩, by simp, rfl⟩).1

/-! ### Claim C6 -/

/-- C6: with an email already belonging to an approved User, `register`
fails (400 "Email already registered") and creates no pending record — the
whole state is unchanged.  When no approved User has the email, the call
succeeds with no condition on the pending table (duplicate pending emails
are not checked), and the created pending record stores `hashFn password`,
not the plaintext password. -/
theorem register_conflict_spec (hashFn : String → String) (newId : String)
    (db : DB) (name email password : String)
    (hn : name ≠ "") (he : email ≠ "") (hp : password ≠ "") :
    ((∃ v ∈ db.users, v.email = email) →
      register hashFn newId db name email password =
        (⟨400, "Email already registered"⟩, db)) ∧
    ((∀ v ∈ db.users, v.email ≠ email) →
      register hashFn newId db name email password =
        (⟨200, "Registration successful"⟩,
         { db with tempUsers := db.tempUsers ++ [⟨newId, name, email, hashFn password⟩] })) := by
  constructor
  · intro hdup
    have hfind : (findUserByEmail db email).isSome := by
      rw [findUserByEmail, List.find?_isSome]
      obtain ⟨v, hv, hv'⟩ := hdup
      exact ⟨v, hv, by simp [hv']⟩
    simp [register, hn, he, hp, hfind]
  · intro hfree
    have hfind : findUserByEmail db email = none := by
      rw [findUserByEmail, List.find?_eq_none]
      intro v hv
      simp [hfree v hv]
    simp [register, hn, he, hp, hfind]

/-- Witness for C6: both branches at concrete states — a taken email is
rejected without touching the state, and a fresh email (even one that
collides with an existing pending registration) creates a pending row
holding the hash. -/
theorem register_conflict_spec_witness :
    register (fun s => s ++ "#h") "p2"
      ⟨[⟨"u1", "Ann", "ann@x.com", "H", "employee", none⟩], [], [], []⟩
      "Bob" "ann@x.com" "pw" =
      (⟨400, "Email already registered"⟩,
       ⟨[⟨"u1", "Ann", "ann@x.com", "H", "employee", none⟩], [], [], []⟩) ∧
    register (fun s => s ++ "#h") "p2"
      ⟨[], [⟨"p1", "Bob", "bob@x.com", "pw#h"⟩], [], []⟩
      "Bob" "bob@x.com" "pw" =
      (⟨200, "Registration successful"⟩,
       ⟨[], [⟨"p1", "Bob", "bob@x.com", "pw#h"⟩, ⟨"p2", "Bob", "bob@x.com", "pw#h"⟩], [], []⟩) := by
  constructor
  · exact (register_conflict_spec (fun s => s ++ "#h") "p2"
      ⟨[⟨"u1", "Ann", "ann@x.com", "H", "employee", none⟩], [], [], []⟩
      "Bob" "ann@x.com" "pw" (by decide) (by decide) (by decide)).1
      ⟨⟨"u1", "Ann", "ann@x.com", "H", "employee", none⟩, by simp, rfl⟩
  · exact (register_conflict_spec (fun s => s ++ "#h") "p2"
      ⟨[], [⟨"p1", "Bob", "bob@x.com", "pw#h"⟩], [], []⟩
      "Bob" "bob@x.com" "pw" (by decide) (by decide) (by decide)).2
      (by intro v hv; simp at hv)

/-! ### Claim C2 -/

/-- C2 (code bug): the approve endpoint performs no authorization check —
`checkAdmin` is imported by the file but never called in the `POST`
handler.  At this concrete input an entirely unauthenticated caller
(no session cookie at all) approves the pending registration: the call
returns 200, a User is created from the pending row, and the pending row
is deleted, contradicting the admin-only claim. -/
theorem usersApprovePOST_no_guard_bug :
    usersApprovePOST Auth.noToken "u9"
      ⟨[], [⟨"p1", "Ann", "ann@x.com", "H"⟩], [], []⟩ "p1" (some true) =
      (⟨200, "User processed successfully"⟩,
       ⟨[⟨"u9", "Ann", "ann@x.com", "H", "employee", none⟩], [], [], []⟩) ∧
    verifyToken Auth.noToken = .error "Invalid or expired token" := by
  constructor <;> rfl

/-! ### Claim C1 -/

/-- C1 (counterexample): an employee whose batch update submits only a
`priority` change.  The claim says every field other than `status` is
silently dropped, so the task's priority should remain `"medium"`; the code
applies it and the resulting priority is `"high"`. -/
theorem tasksPUT_employee_mutates_priority_cex :
    tasksPUT (Auth.valid ⟨"u1", "employee"⟩)
      ⟨[], [], [], [⟨"t1", "T", "D", "pending", "medium", none, "m1", some "u1", "team1"⟩]⟩
      ["t1"] ⟨none, some "high", none, none, none, none⟩ =
      (⟨200, "updated"⟩,
       ⟨[], [], [], [⟨"t1", "T", "D", "pending", "high", none, "m1", some "u1", "team1"⟩]⟩) ∧
    ("high" : String) ≠ "medium" := by
  constructor
  · rfl
  · decide

theorem truGetD_cases (o : Option String) (v : String) :
    (if tru o then o else none).getD v = v ∨ o = some ((if tru o then o else none).getD v) := by
  rcases o with _ | s
  · simp [tru]
  · by_cases hs : s = "" <;> simp [tru, hs]

theorem dueUpd_cases (o : Option Int) (v : Option Int) :
    (match o with | some d => some d | none => v) = v ∨
      o = (match o with | some d => some d | none => v) := by
  rcases o with _ | d <;> simp

/-- C1 (amended): for every batch update by an employee identity, the
`title`, `description` and `assignedTo` fields of every task are unchanged
(those submitted fields are silently dropped), while `status`, `priority`
and `dueDate` are each either unchanged or set to the submitted value. -/
theorem tasksPUT_employee_frame (auth : Auth) (u : Identity) (db : DB)
    (ids : List String) (upd : TaskUpdates)
    (hauth : verifyToken auth = .ok u) (hrole : u.role = "employee") :
    List.Forall₂ (employeeFrame upd) db.tasks (tasksPUT auth db ids upd).2.tasks := by
  have hrefl : ∀ l : List Task, List.Forall₂ (employeeFrame upd) l l := by
    intro l
    rw [List.forall₂_same]
    intro t _
    simp [employeeFrame]
  unfold tasksPUT
  rw [hauth]
  dsimp only
  by_cases hids : ids.isEmpty
  · simp only [hids, if_true]
    exact hrefl db.tasks
  · simp only [hids, if_false]
    by_cases hown : (u.role == "employee" &&
        (db.tasks.filter fun t => ids.contains t.id).any fun t => t.assignedTo != some u.id)
    · simp only [hown, if_true]
      exact hrefl db.tasks
    · simp only [hown, if_false]
      refine forall₂_map_self _ _ _ ?_
      intro t _
      by_cases hc : ids.contains t.id
      · simp only [employeeFrame, hc, if_true]
        refine ⟨rfl, ?_, ?_, ?_, rfl, rfl, ?_, ?_, ?_⟩
        · simp [applyAllowed, allowedFor, hrole]
        · simp [applyAllowed, allowedFor, hrole]
        · simp [applyAllowed, allowedFor, hrole]
        · simpa [applyAllowed, allowedFor, hrole] using
            truGetD_cases upd.status t.status
        · simpa [applyAllowed, allowedFor, hrole] using
            truGetD_cases upd.priority t.priority
        · simpa [applyAllowed, allowedFor, hrole] using
            dueUpd_cases upd.dueDate t.dueDate
      · have hc2 : ¬t.id ∈ ids := by simpa using hc
        simp [employeeFrame, hc2]

/-- Witness for C1 (amended) at the counterexample input: the frame
property holds on the single targeted task. -/
theorem tasksPUT_employee_frame_witness :
    List.Forall₂ (employeeFrame ⟨some "s2", some "high", none, none, none, none⟩)
      [⟨"t1", "T", "D", "pending", "medium", none, "m1", some "u1", "team1"⟩]
      (tasksPUT (Auth.valid ⟨"u1", "employee"⟩)
        ⟨[], [], [], [⟨"t1", "T", "D", "pending", "medium", none, "m1", some "u1", "team1"⟩]⟩
        ["t1"] ⟨some "s2", some "high", none, none, none, none⟩).2.tasks :=
  tasksPUT_employee_frame (Auth.valid ⟨"u1", "employee"⟩) ⟨"u1", "employee"⟩
    ⟨[], [], [], [⟨"t1", "T", "D", "pending", "medium", none, "m1", some "u1", "team1"⟩]⟩
    ["t1"] ⟨some "s2", some "high", none, none, none, none⟩ rfl rfl

/-! ### Claim C4 -/

/-- C4: for an authorized caller on an existing team, if the team owns at
least one task the delete returns the conflict error (400, "Cannot delete
team with active tasks") and the whole state — team row, members' teamId,
tasks — is unchanged; with zero tasks it clears `teamId` on all current
members and removes the team row in one step of the model (tasks and
pending rows untouched). -/
theorem teamIdDELETE_spec (auth : Auth) (u : Identity) (db : DB) (teamId : String)
    (hauth : checkManagerOrAdmin auth = .ok u) (htid : teamId ≠ "")
    (hteam : (findTeam db teamId).isSome) :
    ((db.tasks.filter (fun t => t.teamId == teamId)) ≠ [] →
      teamIdDELETE auth db teamId = (⟨400, "Cannot delete team with active tasks"⟩, db)) ∧
    ((db.tasks.filter (fun t => t.teamId == teamId)) = [] →
      teamIdDELETE auth db teamId =
        (⟨200, "Team deleted successfully"⟩,
         { users := db.users.map
             (fun v => if v.teamId == some teamId then { v with teamId := none } else v),
           tempUsers := db.tempUsers,
           teams := db.teams.filter (fun t => t.id != teamId),
           tasks := db.tasks })) := by
  obtain ⟨T, hT⟩ := Option.isSome_iff_exists.mp hteam
  constructor
  · intro hne
    have hlen : 0 < (db.tasks.filter (fun t => t.teamId == teamId)).length :=
      List.length_pos.mpr hne
    simp [teamIdDELETE, hauth, htid, hT, hlen]
  · intro heq
    simp [teamIdDELETE, hauth, htid, hT, heq]

/-- Witness for C4: both branches at concrete states — a team with one
task is not deleted and nothing changes; a team with no tasks is deleted
with its member's teamId cleared. -/
theorem teamIdDELETE_spec_witness :
    teamIdDELETE (Auth.valid ⟨"a1", "admin"⟩)
      ⟨[⟨"u1", "U", "u@x", "h", "employee", some "t1"⟩], [], [⟨"t1", "Eng", none⟩],
       [⟨"k1", "T", "D", "pending", "medium", none, "a1", none, "t1"⟩]⟩ "t1" =
      (⟨400, "Cannot delete team with active tasks"⟩,
       ⟨[⟨"u1", "U", "u@x", "h", "employee", some "t1"⟩], [], [⟨"t1", "Eng", none⟩],
        [⟨"k1", "T", "D", "pending", "medium", none, "a1", none, "t1"⟩]⟩) ∧
    teamIdDELETE (Auth.valid ⟨"a1", "admin"⟩)
      ⟨[⟨"u1", "U", "u@x", "h", "employee", some "t1"⟩], [], [⟨"t1", "Eng", none⟩], []⟩ "t1" =
      (⟨200, "Team deleted successfully"⟩,
       ⟨[⟨"u1", "U", "u@x", "h", "employee", none⟩], [], [], []⟩) := by
  constructor
  · exact (teamIdDELETE_spec (Auth.valid ⟨"a1", "admin"⟩) ⟨"a1", "admin"⟩
      ⟨[⟨"u1", "U", "u@x", "h", "employee", some "t1"⟩], [], [⟨"t1", "Eng", none⟩],
       [⟨"k1", "T", "D", "pending", "medium", none, "a1", none, "t1"⟩]⟩ "t1"
      rfl (by decide) (by decide)).1 (by decide)
  · exact (teamIdDELETE_spec (Auth.valid ⟨"a1", "admin"⟩) ⟨"a1", "admin"⟩
      ⟨[⟨"u1", "U", "u@x", "h", "employee", some "t1"⟩], [], [⟨"t1", "Eng", none⟩], []⟩ "t1"
      rfl (by decide) (by decide)).2 (by decide)

/-! ### Claim C10 -/

/-- C10: `isAdmin` never returns a falsy value (on success it returns the
decoded identity, a truthy object, with role admin), so in `GET /api/users`
and `DELETE /api/users/[id]` the `if (!isAdmin) return 403` branch is
unreachable: no successful return carries status 403, and for every
non-admin or unauthenticated caller both handlers end in a propagated
exception, never the 403 envelope. -/
theorem isAdmin_guard_spec (auth : Auth) (db : DB) (userId : String) :
    (∀ u, isAdmin auth = .ok u → u.role = "admin" ∧ jsTruthy u = true) ∧
    (∀ r, usersGET auth db = .ok r → r.status ≠ 403) ∧
    (∀ r s, usersIdDELETE auth db userId = .ok (r, s) → r.status ≠ 403) ∧
    ((∀ u, verifyToken auth = .ok u → u.role ≠ "admin") →
      ∃ e1 e2, usersGET auth db = .error e1 ∧ usersIdDELETE auth db userId = .error e2) := by
  refine ⟨?_, ?_, ?_, ?_⟩
  · intro u' h
    cases auth with
    | noToken => simp [isAdmin, verifyToken] at h
    | badToken => simp [isAdmin, verifyToken] at h
    | valid u =>
      by_cases hr : u.role = "admin"
      · simp [isAdmin, verifyToken, hr] at h
        subst h
        exact ⟨hr, rfl⟩
      · simp [isAdmin, verifyToken, hr] at h
  · intro r h
    unfold usersGET at h
    cases hA : isAdmin auth with
    | error e => rw [hA] at h; simp at h
    | ok u =>
      rw [hA] at h
      simp [jsTruthy] at h
      rw [← h]
      simp
  · intro r s h
    unfold usersIdDELETE at h
    cases hA : isAdmin auth with
    | error e => rw [hA] at h; simp at h
    | ok u =>
      rw [hA] at h
      by_cases hid : userId = ""
      · simp [jsTruthy, hid] at h
        obtain ⟨h1, -⟩ := h
        rw [← h1]
        decide
      · cases hf : db.users.find? (fun x => x.id == userId) with
        | none =>
          simp [jsTruthy, hid, hf] at h
          obtain ⟨h1, -⟩ := h
          rw [← h1]
          decide
        | some v =>
          simp [jsTruthy, hid, hf] at h
          obtain ⟨h1, -⟩ := h
          rw [← h1]
          decide
  · intro hna
    cases auth with
    | noToken => exact ⟨_, _, rfl, rfl⟩
    | badToken => exact ⟨_, _, rfl, rfl⟩
    | valid u =>
      have hr : u.role ≠ "admin" := hna u rfl
      refine ⟨"Access denied: Admins only", "Access denied: Admins only", ?_, ?_⟩ <;>
        simp [usersGET, usersIdDELETE, isAdmin, verifyToken, hr]

/-- Witness for C10 at a concrete unauthenticated request: both handlers
end in a propagated exception, not a 403 response. -/
theorem isAdmin_guard_spec_witness :
    ∃ e1 e2, usersGET Auth.noToken ⟨[], [], [], []⟩ = .error e1 ∧
      usersIdDELETE Auth.noToken ⟨[], [], [], []⟩ "u1" = .error e2 :=
  (isAdmin_guard_spec Auth.noToken ⟨[], [], [], []⟩ "u1").2.2.2
    (by intro u h; simp [verifyToken] at h)

/-! ### Claim C5 -/

/-- C5: for every authenticated caller the task list succeeds; the result
is ordered by `dueDate` ascending; for an employee the supplied
`assignedTo` filter is overridden and membership is exactly
`assignedTo = caller.id` intersected with the supplied status/priority/team
filters; for every other caller the four supplied filters apply
conjunctively. -/
theorem tasksGET_spec (auth : Auth) (u : Identity) (db : DB)
    (qs qp qt qa : String) (hauth : verifyToken auth = .ok u) :
    ∃ ts, tasksGET auth db qs qp qt qa = .ok ts ∧
      List.Pairwise (fun a b => dueLE a b = true) ts ∧
      (u.role = "employee" →
        ∀ t, t ∈ ts ↔ t ∈ db.tasks ∧
          (qs ≠ "" → t.status = qs) ∧ (qp ≠ "" → t.priority = qp) ∧
          (qt ≠ "" → t.teamId = qt) ∧ t.assignedTo = some u.id) ∧
      (u.role ≠ "employee" →
        ∀ t, t ∈ ts ↔ t ∈ db.tasks ∧
          (qs ≠ "" → t.status = qs) ∧ (qp ≠ "" → t.priority = qp) ∧
          (qt ≠ "" → t.teamId = qt) ∧ (qa ≠ "" → t.assignedTo = some qa)) := by
  unfold tasksGET
  rw [hauth]
  dsimp only
  by_cases hrole : u.role = "employee"
  · have hb : (u.role == "employee") = true := by simp [hrole]
    simp only [hb, if_true]
    refine ⟨_, rfl, ?_, ?_, ?_⟩
    · exact List.sorted_mergeSort dueLE_trans dueLE_total _
    · intro _ t
      rw [List.mem_mergeSort, List.mem_filter]
      simp only [taskMatches, Bool.and_eq_true, optMatch_strOpt, optMatchO_some]
      tauto
    · intro hne
      exact absurd hrole hne
  · have hb : (u.role == "employee") = false := by simp [hrole]
    simp only [hb, Bool.false_eq_true, if_false]
    refine ⟨_, rfl, ?_, ?_, ?_⟩
    · exact List.sorted_mergeSort dueLE_trans dueLE_total _
    · intro heq
      exact absurd heq hrole
    · intro _ t
      rw [List.mem_mergeSort, List.mem_filter]
      simp only [taskMatches, Bool.and_eq_true, optMatch_strOpt, optMatchO_strOpt]
      tauto

/-- Witness for C5 at a concrete employee request that supplies an
`assignedTo` filter for another user. -/
theorem tasksGET_spec_witness :
    ∃ ts, tasksGET (Auth.valid ⟨"e1", "employee"⟩)
        ⟨[], [], [],
         [⟨"k1", "A", "D", "pending", "medium", some 5, "m1", some "e1", "t1"⟩,
          ⟨"k2", "B", "D", "pending", "medium", some 3, "m1", some "u2", "t1"⟩]⟩
        "" "" "" "u2" = .ok ts ∧
      List.Pairwise (fun a b => dueLE a b = true) ts ∧
      (("employee" : String) = "employee" →
        ∀ t, t ∈ ts ↔ t ∈
            [⟨"k1", "A", "D", "pending", "medium", some 5, "m1", some "e1", "t1"⟩,
             ⟨"k2", "B", "D", "pending", "medium", some 3, "m1", some "u2", "t1"⟩] ∧
          (("" : String) ≠ "" → t.status = "") ∧ (("" : String) ≠ "" → t.priority = "") ∧
          (("" : String) ≠ "" → t.teamId = "") ∧ t.assignedTo = some "e1") ∧
      (("employee" : String) ≠ "employee" →
        ∀ t, t ∈ ts ↔ t ∈
            [⟨"k1", "A", "D", "pending", "medium", some 5, "m1", some "e1", "t1"⟩,
             ⟨"k2", "B", "D", "pending", "medium", some 3, "m1", some "u2", "t1"⟩] ∧
          (("" : String) ≠ "" → t.status = "") ∧ (("" : String) ≠ "" → t.priority = "") ∧
          (("" : String) ≠ "" → t.teamId = "") ∧ (("u2" : String) ≠ "" → t.assignedTo = some "u2")) :=
  tasksGET_spec (Auth.valid ⟨"e1", "employee"⟩) ⟨"e1", "employee"⟩
    ⟨[], [], [],
     [⟨"k1", "A", "D", "pending", "medium", some 5, "m1", some "e1", "t1"⟩,
      ⟨"k2", "B", "D", "pending", "medium", some 3, "m1", some "u2", "t1"⟩]⟩
    "" "" "" "u2" rfl

/-! ### Claim C7 -/

/-- C7: for every authorized (non-employee) caller, task creation fails
with the validation error when title, description or teamId is missing;
fails with "Team not found" when the team does not exist; fails when a
non-empty `assignedTo` does not resolve to a user of that team; and on
success the created task has status "pending" and priority "medium"
whenever no priority was supplied — with no state change on any failure. -/
theorem tasksPOST_spec (auth : Auth) (u : Identity) (newTaskId : String)
    (db : DB) (b : TaskCreateBody)
    (hauth : verifyToken auth = .ok u) (hrole : u.role ≠ "employee") :
    ((b.title = "" ∨ b.description = "" ∨ b.teamId = "") →
      tasksPOST auth newTaskId db b =
        (.err ⟨400, "Title, description, and teamId are required"⟩, db)) ∧
    (b.title ≠ "" → b.description ≠ "" → b.teamId ≠ "" → findTeam db b.teamId = none →
      tasksPOST auth newTaskId db b = (.err ⟨400, "Team not found"⟩, db)) ∧
    (∀ a, b.title ≠ "" → b.description ≠ "" → b.teamId ≠ "" →
      (findTeam db b.teamId).isSome → cleanAssignedTo b = some a →
      (∀ v ∈ db.users, ¬(v.id = a ∧ v.teamId = some b.teamId)) →
      tasksPOST auth newTaskId db b =
        (.err ⟨400, "Assigned user not found or not part of the selected team"⟩, db)) ∧
    (b.title ≠ "" → b.description ≠ "" → b.teamId ≠ "" →
      (findTeam db b.teamId).isSome →
      (cleanAssignedTo b = none ∨
        ∃ a, cleanAssignedTo b = some a ∧ ∃ v ∈ db.users, v.id = a ∧ v.teamId = some b.teamId) →
      ∃ t, tasksPOST auth newTaskId db b = (.ok t, { db with tasks := db.tasks ++ [t] }) ∧
        t.status = "pending" ∧ t.priority = (if b.priority = "" then "medium" else b.priority) ∧
        t.title = b.title ∧ t.description = b.description ∧ t.teamId = b.teamId ∧
        t.assignedTo = cleanAssignedTo b ∧ t.assignedBy = u.id ∧ t.dueDate = b.dueDate) := by
  have hb : (u.role == "employee") = false := by simp [hrole]
  refine ⟨?_, ?_, ?_, ?_⟩
  · intro hmiss
    rcases hmiss with h | h | h <;> simp [tasksPOST, hauth, hb, h]
  · intro h1 h2 h3 hteam
    simp [tasksPOST, hauth, hb, h1, h2, h3, hteam]
  · intro a h1 h2 h3 hteam ha hnone
    obtain ⟨T, hT⟩ := Option.isSome_iff_exists.mp hteam
    have hany : (db.users.any (fun v => v.id == a && v.teamId == some b.teamId)) = false := by
      rw [List.any_eq_false]
      intro v hv
      have hnv := hnone v hv
      simp only [Bool.and_eq_true, beq_iff_eq, not_and] at hnv ⊢
      exact fun hva hvt => (hnv hva) hvt
    simp [tasksPOST, hauth, hb, h1, h2, h3, hT, ha, hany]
  · intro h1 h2 h3 hteam hassign
    obtain ⟨T, hT⟩ := Option.isSome_iff_exists.mp hteam
    rcases hassign with hnone | ⟨a, ha, v, hv, hva, hvt⟩
    · refine ⟨⟨newTaskId, b.title, b.description, "pending",
          (if b.priority == "" then "medium" else b.priority),
          b.dueDate, u.id, cleanAssignedTo b, b.teamId⟩,
          ?_, rfl, ?_, rfl, rfl, rfl, rfl, rfl, rfl⟩
      · simp [tasksPOST, hauth, hb, h1, h2, h3, hT, hnone]
      · by_cases hp : b.priority = "" <;> simp [hp]
    · have hany : (db.users.any (fun w => w.id == a && w.teamId == some b.teamId)) = true := by
        rw [List.any_eq_true]
        exact ⟨v, hv, by simp [hva, hvt]⟩
      refine ⟨⟨newTaskId, b.title, b.description, "pending",
          (if b.priority == "" then "medium" else b.priority),
          b.dueDate, u.id, cleanAssignedTo b, b.teamId⟩,
          ?_, rfl, ?_, rfl, rfl, rfl, rfl, rfl, rfl⟩
      · simp [tasksPOST, hauth, hb, h1, h2, h3, hT, ha, hany]
      · by_cases hp : b.priority = "" <;> simp [hp]

/-- Witness for C7: a fully valid creation by a manager with no priority
supplied produces a pending, medium-priority task appended to the store. -/
theorem tasksPOST_spec_witness :
    ∃ t, tasksPOST (Auth.valid ⟨"m1", "manager"⟩) "k1"
        ⟨[⟨"u1", "U", "u@x", "h", "employee", some "t1"⟩], [], [⟨"t1", "Eng", none⟩], []⟩
        ⟨"Fix bug", "Desc", some "u1", "t1", none, ""⟩ =
        (.ok t,
         { (⟨[⟨"u1", "U", "u@x", "h", "employee", some "t1"⟩], [], [⟨"t1", "Eng", none⟩], []⟩ : DB)
            with tasks := [] ++ [t] }) ∧
      t.status = "pending" ∧
      t.priority = (if ("" : String) = "" then "medium" else "") ∧
      t.title = "Fix bug" ∧ t.description = "Desc" ∧ t.teamId = "t1" ∧
      t.assignedTo = cleanAssignedTo ⟨"Fix bug", "Desc", some "u1", "t1", none, ""⟩ ∧
      t.assignedBy = "m1" ∧ t.dueDate = none := by
  refine (tasksPOST_spec (Auth.valid ⟨"m1", "manager"⟩) ⟨"m1", "manager"⟩ "k1"
      ⟨[⟨"u1", "U", "u@x", "h", "employee", some "t1"⟩], [], [⟨"t1", "Eng", none⟩], []⟩
      ⟨"Fix bug", "Desc", some "u1", "t1", none, ""⟩ rfl (by decide)).2.2.2
    (by decide) (by decide) (by decide) (by decide) (Or.inr ?_)
  exact ⟨"u1", by decide, ⟨"u1", "U", "u@x", "h", "employee", some "t1"⟩, by simp, rfl, rfl⟩

/-! ### Claim C8 -/

theorem filter_ids_length_lt (users : List User) (ids : List String)
    (hnd : (users.map User.id).Nodup) (i : String) (hi : i ∈ ids)
    (hmiss : ∀ v ∈ users, v.id ≠ i) :
    (users.filter (fun v => ids.contains v.id)).length < ids.length := by
  classical
  have hsub : List.Sublist (users.filter (fun v => ids.contains v.id)) users :=
    List.filter_sublist _
  have hndl : ((users.filter (fun v => ids.contains v.id)).map User.id).Nodup :=
    List.Nodup.sublist (hsub.map User.id) hnd
  have hsubset : ((users.filter (fun v => ids.contains v.id)).map User.id) ⊆ ids.erase i := by
    intro x hx
    obtain ⟨v, hv, rfl⟩ := List.mem_map.mp hx
    obtain ⟨hvu, hvc⟩ := List.mem_filter.mp hv
    have hxid : v.id ∈ ids := by simpa using hvc
    exact (List.mem_erase_of_ne (hmiss v hvu)).mpr hxid
  have h1 : ((users.filter (fun v => ids.contains v.id)).map User.id).length ≤
      (ids.erase i).length := by
    calc ((users.filter (fun v => ids.contains v.id)).map User.id).length
        = ((users.filter (fun v => ids.contains v.id)).map User.id).toFinset.card :=
          (List.toFinset_card_of_nodup hndl).symm
      _ ≤ (ids.erase i).toFinset.card := by
          apply Finset.card_le_card
          intro x hx
          rw [List.mem_toFinset] at hx ⊢
          exact hsubset hx
      _ ≤ (ids.erase i).length := List.toFinset_card_le _
  have h2 : (ids.erase i).length = ids.length - 1 := List.length_erase_of_mem hi
  have h3 : 0 < ids.length := List.length_pos.mpr (List.ne_nil_of_mem hi)
  have h4 : ((users.filter (fun v => ids.contains v.id)).map User.id).length =
      (users.filter (fun v => ids.contains v.id)).length := List.length_map _ _
  omega

/-- C8: for every authorized call with a non-empty id list, adding members
fails with 404 when the team is missing, and fails with 400 "One or more
users not found" when some listed id resolves to no user — in both cases
with the state entirely unchanged (the existence checks run before any
mutation). -/
theorem membersPOST_spec (auth : Auth) (u : Identity) (db : DB) (teamId : String)
    (ids : List String)
    (hauth : checkManagerOrAdmin auth = .ok u) (htid : teamId ≠ "") (hids : ids ≠ [])
    (hwf : (db.users.map User.id).Nodup) :
    (findTeam db teamId = none →
      membersPOST auth db teamId ids = (⟨404, "Team not found"⟩, db)) ∧
    ((findTeam db teamId).isSome → (∃ i ∈ ids, ∀ v ∈ db.users, v.id ≠ i) →
      membersPOST auth db teamId ids = (⟨400, "One or more users not found"⟩, db)) := by
  have hne : ids.isEmpty = false := by
    cases ids
    · simp at hids
    · simp
  constructor
  · intro hteam
    simp [membersPOST, hauth, htid, hne, hteam]
  · intro hteam hmiss
    obtain ⟨T, hT⟩ := Option.isSome_iff_exists.mp hteam
    obtain ⟨i, hi, hmi⟩ := hmiss
    have hlt := filter_ids_length_lt db.users ids hwf i hi hmi
    have hne2 : (db.users.filter (fun v => ids.contains v.id)).length ≠ ids.length :=
      Nat.ne_of_lt hlt
    simp [membersPOST, hauth, htid, hne, hT]
    simpa using hne2

/-- Witness for C8: a concrete authorized call where one of the two listed
users does not exist fails with 400 and leaves the state unchanged. -/
theorem membersPOST_spec_witness :
    membersPOST (Auth.valid ⟨"a1", "admin"⟩)
      ⟨[⟨"u1", "U", "u@x", "h", "employee", none⟩], [], [⟨"t1", "Eng", none⟩], []⟩
      "t1" ["u1", "ghost"] =
      (⟨400, "One or more users not found"⟩,
       ⟨[⟨"u1", "U", "u@x", "h", "employee", none⟩], [], [⟨"t1", "Eng", none⟩], []⟩) :=
  (membersPOST_spec (Auth.valid ⟨"a1", "admin"⟩) ⟨"a1", "admin"⟩
      ⟨[⟨"u1", "U", "u@x", "h", "employee", none⟩], [], [⟨"t1", "Eng", none⟩], []⟩
      "t1" ["u1", "ghost"] rfl (by decide) (by decide) (by decide)).2
    (by decide) ⟨"ghost", by decide, by decide⟩

/-! ### Claim C9 -/

/-- C9 (counterexample): user `"u1"` is already a member of team `"t1"`.
`addMembers` then `removeMembers` with the same singleton user set drops
the team's membership count from its original value 1 to 0, refuting the
claim that the round trip leaves the count at its original value for every
set of existing user ids. -/
theorem members_roundTrip_count_cex :
    memberCount
      (⟨[⟨"u1", "U", "u@x", "h", "employee", some "t1"⟩], [], [⟨"t1", "Eng", none⟩], []⟩ : DB)
      "t1" = 1 ∧
    memberCount
      (membersDELETE (Auth.valid ⟨"a1", "admin"⟩)
        (membersPOST (Auth.valid ⟨"a1", "admin"⟩)
          ⟨[⟨"u1", "U", "u@x", "h", "employee", some "t1"⟩], [], [⟨"t1", "Eng", none⟩], []⟩
          "t1" ["u1"]).2 "t1" ["u1"]).2 "t1" = 0 := by
  constructor <;> rfl

theorem filter_ids_length_eq (users : List User) (ids : List String)
    (hndu : (users.map User.id).Nodup) (hnd : ids.Nodup)
    (hall : ∀ i ∈ ids, ∃ v ∈ users, v.id = i) :
    (users.filter (fun v => ids.contains v.id)).length = ids.length := by
  classical
  have hsub : List.Sublist (users.filter (fun v => ids.contains v.id)) users :=
    List.filter_sublist _
  have hndl : ((users.filter (fun v => ids.contains v.id)).map User.id).Nodup :=
    List.Nodup.sublist (hsub.map User.id) hndu
  have hfeq : ((users.filter (fun v => ids.contains v.id)).map User.id).toFinset =
      ids.toFinset := by
    apply Finset.Subset.antisymm
    · intro x hx
      rw [List.mem_toFinset] at hx ⊢
      obtain ⟨v, hv, rfl⟩ := List.mem_map.mp hx
      obtain ⟨hvu, hvc⟩ := List.mem_filter.mp hv
      simpa using hvc
    · intro x hx
      rw [List.mem_toFinset] at hx ⊢
      obtain ⟨v, hv, rfl⟩ := hall x hx
      exact List.mem_map.mpr ⟨v, List.mem_filter.mpr ⟨hv, by simpa using hx⟩, rfl⟩
  have h1 : ((users.filter (fun v => ids.contains v.id)).map User.id).length = ids.length := by
    rw [← List.toFinset_card_of_nodup hndl, ← List.toFinset_card_of_nodup hnd, hfeq]
  simpa using h1

/-- C9 (amended): for an authorized call on an existing team, with every
listed id resolving to a distinct existing user and none of the listed
users already a member of the team, `addMembers` followed by
`removeMembers` with the same user set leaves every listed user's `teamId`
null and the team's membership count at its original value; and
`removeMembers` on any state succeeds, clears `teamId` only for listed
users currently in that team, and silently ignores (leaves unchanged) ids
that are not current members. -/
theorem members_roundTrip_spec (auth : Auth) (u : Identity) (db : DB) (teamId : String)
    (ids : List String)
    (hauth : checkManagerOrAdmin auth = .ok u) (htid : teamId ≠ "") (hids : ids ≠ [])
    (hteam : (findTeam db teamId).isSome)
    (hwf : (db.users.map User.id).Nodup) (hidnd : ids.Nodup)
    (hall : ∀ i ∈ ids, ∃ v ∈ db.users, v.id = i)
    (hnomem : ∀ v ∈ db.users, v.id ∈ ids → v.teamId ≠ some teamId) :
    (∀ v' ∈ (membersDELETE auth (membersPOST auth db teamId ids).2 teamId ids).2.users,
        v'.id ∈ ids → v'.teamId = none) ∧
    memberCount (membersDELETE auth (membersPOST auth db teamId ids).2 teamId ids).2 teamId =
      memberCount db teamId ∧
    (∀ dbx : DB, (findTeam dbx teamId).isSome →
      (membersDELETE auth dbx teamId ids).1 = ⟨200, "Member(s) removed from team"⟩ ∧
      List.Forall₂ (fun v v' : User =>
          (v.teamId ≠ some teamId → v' = v) ∧
          (v.id ∉ ids → v' = v) ∧
          (v.id ∈ ids → v.teamId = some teamId → v' = { v with teamId := none }))
        dbx.users (membersDELETE auth dbx teamId ids).2.users) := by
  have hne : ids.isEmpty = false := by
    cases ids
    · simp at hids
    · simp
  obtain ⟨T, hT⟩ := Option.isSome_iff_exists.mp hteam
  have hlen : (db.users.filter (fun v => decide (v.id ∈ ids))).length = ids.length := by
    simpa using filter_ids_length_eq db.users ids hwf hidnd hall
  have hdb1 : (membersPOST auth db teamId ids).2 =
      { db with users := db.users.map (addRow teamId ids) } := by
    simp [membersPOST, hauth, htid, hne, hT, hlen]
  have hTu : db.teams.find? (fun t => t.id == teamId) = some T := hT
  have hdb2 : (membersDELETE auth (membersPOST auth db teamId ids).2 teamId ids).2 =
      { db with users := (db.users.map (addRow teamId ids)).map (removeRow teamId ids) } := by
    conv_lhs => rw [hdb1]
    simp [membersDELETE, findTeam, hauth, htid, hne, hTu]
  refine ⟨?_, ?_, ?_⟩
  · intro v' hv' hidv
    rw [hdb2] at hv'
    simp only [List.map_map, List.mem_map, Function.comp] at hv'
    obtain ⟨v, hv, rfl⟩ := hv'
    by_cases hc : v.id ∈ ids
    · simp [Function.comp, addRow, removeRow, hc]
    · simp [Function.comp, addRow, removeRow, hc] at hidv
  · rw [hdb2]
    unfold memberCount
    simp only [List.map_map]
    rw [List.countP_map]
    apply List.countP_congr
    intro v hv
    by_cases hc : v.id ∈ ids
    · have hmem := hnomem v hv hc
      simp [Function.comp, addRow, removeRow, hc, hmem]
    · simp [Function.comp, addRow, removeRow, hc]
  · intro dbx hteamx
    obtain ⟨Tx, hTx⟩ := Option.isSome_iff_exists.mp hteamx
    have husers : (membersDELETE auth dbx teamId ids).2.users =
        dbx.users.map (removeRow teamId ids) := by
      simp [membersDELETE, hauth, htid, hne, hTx]
    constructor
    · simp [membersDELETE, hauth, htid, hne, hTx]
    · rw [husers]
      apply forall₂_map_self
      intro v _
      refine ⟨?_, ?_, ?_⟩
      · intro hnt
        simp [removeRow, hnt]
      · intro hnid
        simp [removeRow, hnid]
      · intro hid ht
        simp [removeRow, hid, ht]

/-- Witness for C9 (amended): adding and then removing a non-member user
returns the membership count to its original value. -/
theorem members_roundTrip_spec_witness :
    memberCount
      (membersDELETE (Auth.valid ⟨"a1", "admin"⟩)
        (membersPOST (Auth.valid ⟨"a1", "admin"⟩)
          ⟨[⟨"u2", "V", "v@x", "h", "employee", none⟩], [], [⟨"t1", "Eng", none⟩], []⟩
          "t1" ["u2"]).2 "t1" ["u2"]).2 "t1" =
      memberCount
        (⟨[⟨"u2", "V", "v@x", "h", "employee", none⟩], [], [⟨"t1", "Eng", none⟩], []⟩ : DB)
        "t1" :=
  (members_roundTrip_spec (Auth.valid ⟨"a1", "admin"⟩) ⟨"a1", "admin"⟩
      ⟨[⟨"u2", "V", "v@x", "h", "employee", none⟩], [], [⟨"t1", "Eng", none⟩], []⟩
      "t1" ["u2"] rfl (by decide) (by decide) (by decide) (by decide) (by decide)
      (by decide) (by decide)).2.1

end EMS
